import Mathlib

/-!
Shallow embedding of `pop3_check.go` (package main of horgh/pop3_check).

The program drives one POP3 session: read the greeting, send USER and PASS,
send LIST, parse the per-message size lines, and warn when a message size or
the mailbox total exceeds a threshold.  The embedding models the connection
as a script of read outcomes and write outcomes supplied by the environment
(the server and the transport), and models the observable side effects
(lines written, warnings logged, verbose diagnostics, connection closing)
as an explicit event list.  Command-line handling (`getArgs`, `readFile`,
`main`) is outside the modelled core, as is the `net.Dial` call: the model
starts once the connection is established (line 251 of the source).
-/

namespace Pop3

/-- One outcome of a single `Conn.readLine` call (lines 162-177 of
`pop3_check.go`): a line arrives, the read deadline expires (a `net.Error`
with `Timeout()`), the peer closes the stream (`io.EOF`), or some other
transport error occurs. -/
inductive ReadOutcome where
  | line (s : String)
  | timeout
  | eof
  | fail (e : String)
deriving DecidableEq, Repr

/-- One outcome of a single `Conn.writeLine` call (lines 215-230): success,
a `WriteString` error, or a `Flush` error.  The source returns the error in
both failure cases. -/
inductive WriteResult where
  | ok
  | wErr (e : String)
  | fErr (e : String)
deriving DecidableEq, Repr

/-- Observable side effects of a run: a command line handed to `writeLine`
(the send attempt), the per-message size warning (line 344), the mailbox
quota warning (line 354), a `Conn.Close` call (lines 151-154), and a
diagnostic line printed only when verbose output is on. -/
inductive Event where
  | write (s : String)
  | warnBig (id size : Int)
  | warnQuota (total : Int)
  | close
  | vlog (s : String)
deriving DecidableEq, Repr

/-- The environment of one run: the stream of read outcomes the connection
will yield, and the outcomes of successive write calls in order.  An
exhausted read script behaves as a timeout (a real read with no more data
blocks until the 5-second deadline expires); an exhausted write script
succeeds. -/
structure World where
  reads : List ReadOutcome
  writes : List WriteResult
deriving DecidableEq, Repr

/-- `strings.HasPrefix(s, pre)`. -/
def goHasPrefix (s pre : String) : Bool := pre.toList.isPrefixOf s.toList

/-- `strings.TrimSpace(s)`: leading and trailing whitespace removed. -/
def goTrimSpace (s : String) : String :=
  ⟨((s.toList.dropWhile Char.isWhitespace).reverse.dropWhile Char.isWhitespace).reverse⟩

/-- `Conn.Close` (lines 151-154): closing the connection, as the event it
emits.  No function of the modelled core ever invokes it. -/
def closeConn : List Event := [Event.close]

/-- `Conn.readLine` (lines 162-177) on a read script: the head outcome.  A
delivered line is returned with surrounding whitespace trimmed
(`strings.TrimSpace`, line 175); the error outcomes are handed to the
caller unchanged. -/
def readLine : List ReadOutcome → (Except ReadOutcome String) × List ReadOutcome
  | [] => (.error ReadOutcome.timeout, [])
  | ReadOutcome.line s :: rest => (.ok (goTrimSpace s), rest)
  | ReadOutcome.timeout :: rest => (.error ReadOutcome.timeout, rest)
  | ReadOutcome.eof :: rest => (.error ReadOutcome.eof, rest)
  | ReadOutcome.fail e :: rest => (.error (ReadOutcome.fail e), rest)

/-- `Conn.readLines` (lines 182-211): read lines until `endCheck` holds of
a line (that line is kept and the accumulated lines are returned at once),
or a timeout or EOF ends the collection normally with the lines so far, or
any other read error is returned as a hard failure, discarding the
accumulated lines (`return nil, err`, line 202). -/
def readLines (endCheck : String → Bool) : List ReadOutcome → Except String (List String) × List ReadOutcome
  | [] => (.ok [], [])
  | ReadOutcome.line s :: rest =>
    let t := goTrimSpace s
    if endCheck t then (.ok [t], rest)
    else
      match readLines endCheck rest with
      | (.ok ls, rem) => (.ok (t :: ls), rem)
      | (.error e, rem) => (.error e, rem)
  | ReadOutcome.timeout :: rest => (.ok [], rest)
  | ReadOutcome.eof :: rest => (.ok [], rest)
  | ReadOutcome.fail e :: rest => (.error e, rest)

/-- `Conn.writeLine` (lines 215-230) on a world: logs the outgoing line when
verbose output is on (before the write is attempted, line 217), then
consumes the next write outcome.  The returned events record the attempt;
the result carries the `WriteString` or `Flush` error when one occurred. -/
def writeLine (s : String) (vb : Bool) (w : World) : Except String Unit × World × List Event :=
  let evs := (if vb then [Event.vlog ("Writing line [" ++ s ++ "]")] else []) ++ [Event.write s]
  match w.writes with
  | [] => (.ok (), ⟨w.reads, []⟩, evs)
  | WriteResult.ok :: rest => (.ok (), ⟨w.reads, rest⟩, evs)
  | WriteResult.wErr e :: rest => (.error e, ⟨w.reads, rest⟩, evs)
  | WriteResult.fErr e :: rest => (.error e, ⟨w.reads, rest⟩, evs)

/-- `readLines` lifted to a world (the write script is untouched). -/
def readLinesW (endCheck : String → Bool) (w : World) : Except String (List String) × World :=
  let (r, rem) := readLines endCheck w.reads
  (r, ⟨rem, w.writes⟩)

/-- Digit run at the head of a character list, as a natural number paired
with the rest of the input: `none` when no digit leads. -/
def scanDigits (cs : List Char) : Option (Nat × List Char) :=
  let ds := cs.takeWhile Char.isDigit
  if ds.isEmpty then none
  else some (ds.foldl (fun a c => a * 10 + (c.toNat - 48)) 0, cs.dropWhile Char.isDigit)

/-- Smallest value of Go's 64-bit `int`. -/
def int64Min : Int := -(2 ^ 63)

/-- Largest value of Go's 64-bit `int`. -/
def int64Max : Int := 2 ^ 63 - 1

/-- Two's-complement wraparound into Go's 64-bit `int`: the defined
behaviour of signed overflow in Go arithmetic (the language specification
fixes it to the representation's wraparound). -/
def wrap64 (n : Int) : Int := (n + 2 ^ 63) % 2 ^ 64 - 2 ^ 63

/-- One `%d` conversion of Go's `fmt` scanner into an `int`: skip leading
whitespace, an optional sign, then a nonempty digit run; the rest of the
input follows.  A value outside the 64-bit `int` range is a conversion
error (`strconv.ParseInt`'s range error), reported by `Sscanf` exactly as
a malformed token is. -/
def scanInt (cs : List Char) : Option (Int × List Char) :=
  match cs.dropWhile Char.isWhitespace with
  | '-' :: rest =>
    (scanDigits rest).bind (fun p =>
      if -(p.1 : Int) < int64Min then none else some (-(p.1 : Int), p.2))
  | '+' :: rest =>
    (scanDigits rest).bind (fun p =>
      if (p.1 : Int) > int64Max then none else some ((p.1 : Int), p.2))
  | other =>
    (scanDigits other).bind (fun p =>
      if (p.1 : Int) > int64Max then none else some ((p.1 : Int), p.2))

/-- `fmt.Sscanf(line, "%d %d", &id, &size)` (line 333): two integers read
from the front of the line, whitespace separated; input left over after the
second integer is not consumed and is not an error (`Sscanf` stops once the
format string is exhausted).  An error is returned exactly when fewer than
two in-range integers can be read (a malformed token and an out-of-range
one alike; the differing Go error texts are collapsed, since `checkMailbox`
discards them), so the source's `countScanned != 2` branch (line 338) never
fires; both source failure branches map to this error case. -/
def sscanf2 (s : String) : Except String (Int × Int) :=
  match scanInt s.toList with
  | none => .error "expected integer"
  | some (id, rest) =>
    match scanInt rest with
    | none => .error "expected integer"
    | some (size, _) => .ok (id, size)

/-- Prefix a list of already-emitted events onto a step's outcome. -/
def withEvents (pre : List Event) (r : Except String Unit × List Event) : Except String Unit × List Event :=
  (r.1, pre ++ r.2)

/-- The LIST-response loop of `checkMailbox` (lines 318-348) over the
collected lines, carrying the running `sizeOfAllMessages` total: a line is
logged when verbose (line 321), skipped when it starts with `+OK` or equals
`.` (line 327), otherwise parsed by `sscanf2`; a parse failure aborts with
the source's error (line 336), otherwise a warning is emitted when the size
exceeds `warnSize` (line 343) and the size joins the total (line 347) with
the wraparound of the source's 64-bit `int` addition. -/
def scanListLines (warnSize : Int) (vb : Bool) : List String → Int → Except String Int × List Event
  | [], total => (.ok total, [])
  | l :: rest, total =>
    let ev0 := if vb then [Event.vlog ("Read LIST line: " ++ l)] else []
    if goHasPrefix l "+OK" || l == "." then
      let r := scanListLines warnSize vb rest total
      (r.1, ev0 ++ r.2)
    else
      match sscanf2 l with
      | .error _ => (.error "Unable to parse LIST line", ev0)
      | .ok (id, size) =>
        let ev1 := if size > warnSize then [Event.warnBig id size] else []
        let r := scanListLines warnSize vb rest (wrap64 (total + size))
        (r.1, ev0 ++ ev1 ++ r.2)

/-- The tail of `checkMailbox` after the LIST lines are collected (lines
318-356): run the entry loop from total 0, log the total when verbose
(line 351), and warn when the total exceeds `quotaWarnSize` (line 353). -/
def listStep (warnSize quotaWarnSize : Int) (vb : Bool) (lines : List String) : Except String Unit × List Event :=
  match scanListLines warnSize vb lines 0 with
  | (.error e, evs) => (.error e, evs)
  | (.ok total, evs) =>
    let evs1 := evs ++ (if vb then [Event.vlog ("Total size of mailbox: " ++ toString total)] else [])
    let evs2 := evs1 ++ (if total > quotaWarnSize then [Event.warnQuota total] else [])
    (.ok (), evs2)

/-- `checkMailbox` lines 309-356: write `LIST`, read lines until a line is
exactly `.`, and process them.  The result of the `LIST` write is discarded
by the model just as by the source: line 310's `err` is overwritten by the
`readLines` assignment at line 311 before it is ever checked. -/
def afterPass (warnSize quotaWarnSize : Int) (vb : Bool) (w : World) : Except String Unit × List Event :=
  match writeLine "LIST" vb w with
  | (_, w1, ev1) =>
    withEvents ev1 (match readLinesW (fun s => s == ".") w1 with
      | (.error e, _) => (.error e, [])
      | (.ok lines, _) => listStep warnSize quotaWarnSize vb lines)

/-- `checkMailbox` lines 289-307: write `PASS <pass>`, abort on a write
error, read lines until a `+OK`-prefixed one, abort on a hard read error,
and require exactly one collected line starting with `+OK`; otherwise fail
with the source's `Unexpected PASS respose` error. -/
def afterUser (pass : String) (warnSize quotaWarnSize : Int) (vb : Bool) (w : World) : Except String Unit × List Event :=
  match writeLine ("PASS " ++ pass) vb w with
  | (.error e, _, ev1) => (.error e, ev1)
  | (.ok _, w1, ev1) =>
    withEvents ev1 (match readLinesW (fun s => goHasPrefix s "+OK") w1 with
      | (.error e, _) => (.error e, [])
      | (.ok [l], w2) =>
        if goHasPrefix l "+OK" then afterPass warnSize quotaWarnSize vb w2
        else (.error "Unexpected PASS respose", [])
      | (.ok _, _) => (.error "Unexpected PASS respose", []))

/-- `checkMailbox` lines 270-288: write `USER <user>`, abort on a write
error, read lines until a `+OK`-prefixed one, abort on a hard read error,
and require exactly one collected line starting with `+OK`; otherwise fail
with the source's `Unexpected user respose` error. -/
def afterGreeting (user pass : String) (warnSize quotaWarnSize : Int) (vb : Bool) (w : World) : Except String Unit × List Event :=
  match writeLine ("USER " ++ user) vb w with
  | (.error e, _, ev1) => (.error e, ev1)
  | (.ok _, w1, ev1) =>
    withEvents ev1 (match readLinesW (fun s => goHasPrefix s "+OK") w1 with
      | (.error e, _) => (.error e, [])
      | (.ok [l], w2) =>
        if goHasPrefix l "+OK" then afterUser pass warnSize quotaWarnSize vb w2
        else (.error "Unexpected user respose", [])
      | (.ok _, _) => (.error "Unexpected user respose", []))

/-- `checkMailbox` (lines 234-357) from the point the connection is
established: read the greeting lines until a `+OK`-prefixed one, require
exactly one line (else `Unexpected line count`, line 263) starting with
`+OK ` including the trailing space (else `Invalid greeting`, line 267),
then run the USER, PASS and LIST steps.  No branch of the function emits
`Event.close`: the source never calls `Conn.Close`. -/
def checkMailbox (user pass : String) (warnSize quotaWarnSize : Int) (vb : Bool) (w : World) : Except String Unit × List Event :=
  match readLinesW (fun s => goHasPrefix s "+OK") w with
  | (.error e, _) => (.error e, [])
  | (.ok [l], w1) =>
    if goHasPrefix l "+OK " then afterGreeting user pass warnSize quotaWarnSize vb w1
    else (.error "Invalid greeting", [])
  | (.ok _, _) => (.error "Unexpected line count", [])

/-- True of the per-message size warning events. -/
def isBigWarn : Event → Bool
  | Event.warnBig _ _ => true
  | _ => false

/-- True of the mailbox quota warning events. -/
def isQuotaWarn : Event → Bool
  | Event.warnQuota _ => true
  | _ => false

/-- True of the connection-close events. -/
def isClose : Event → Bool
  | Event.close => true
  | _ => false

/-- True of the command-write events. -/
def isWrite : Event → Bool
  | Event.write _ => true
  | _ => false

/-- False exactly of the verbose-only diagnostic events. -/
def notVlog : Event → Bool
  | Event.vlog _ => false
  | _ => true

/-- The mailbox entries of a collected LIST response: `+OK`-prefixed lines
and `.` lines are skipped, every other line contributes its `sscanf2`
parse; `none` when some such line fails to parse. -/
def parseEntries : List String → Option (List (Int × Int))
  | [] => some []
  | l :: rest =>
    if goHasPrefix l "+OK" || l == "." then parseEntries rest
    else
      match sscanf2 l with
      | .error _ => none
      | .ok e => (parseEntries rest).map (fun es => e :: es)

/-- The sum of the sizes of a list of mailbox entries, as an exact
(unbounded) integer. -/
def sumSizes (es : List (Int × Int)) : Int := (es.map Prod.snd).sum

/-- The running total the source accumulates over a list of entries:
64-bit signed addition of each size in turn, starting from `t`.  It equals
`t` plus the exact sum whenever every intermediate total stays within the
`int` range. -/
def wrapSum (t : Int) (es : List (Int × Int)) : Int :=
  es.foldl (fun a e => wrap64 (a + e.2)) t

/-- The per-message warnings a list of entries should produce: one
`warnBig` per entry whose size exceeds the threshold, in order. -/
def bigWarnEvents (warnSize : Int) (es : List (Int × Int)) : List Event :=
  (es.filter (fun e => decide (e.2 > warnSize))).map (fun e => Event.warnBig e.1 e.2)

/-- Whitespace-separated fields of a character list. -/
def wsTokens (cs : List Char) : List (List Char) :=
  (cs.foldr
    (fun c acc =>
      if c.isWhitespace then [] :: acc
      else
        match acc with
        | [] => [[c]]
        | t :: ts => (c :: t) :: ts)
    []).filter (fun t => !t.isEmpty)

/-- A field that is one whole integer literal: an optional sign then only
digits. -/
def isIntToken : List Char → Bool
  | '-' :: rest => !rest.isEmpty && rest.all Char.isDigit
  | '+' :: rest => !rest.isEmpty && rest.all Char.isDigit
  | t => !t.isEmpty && t.all Char.isDigit

/-- Modelled from the spec's words (claim C4): the line "decomposes into
exactly two whitespace-separated integers" - exactly two fields, each an
integer.  This is the spec-side reading the code is compared against, not
the source's parser. -/
def decomposesAsTwoInts (s : String) : Bool :=
  match wsTokens s.toList with
  | [a, b] => isIntToken a && isIntToken b
  | _ => false

end Pop3

namespace Pop3

/-! ### Basic anatomy of the Line Session operations -/

theorem writeLine_evs (s : String) (vb : Bool) (w : World) :
    (writeLine s vb w).2.2
      = (if vb then [Event.vlog ("Writing line [" ++ s ++ "]")] else []) ++ [Event.write s] := by
  rcases w with ⟨rs, ws⟩
  rcases ws with _ | ⟨o, rest⟩
  · rfl
  · cases o <;> rfl

theorem writeLine_write_mem (s : String) (vb : Bool) (w : World) :
    Event.write s ∈ (writeLine s vb w).2.2 := by
  rw [writeLine_evs]
  exact List.mem_append.mpr (Or.inr (by simp))

theorem writeLine_reads (s : String) (vb : Bool) (w : World) :
    (writeLine s vb w).2.1.reads = w.reads := by
  rcases w with ⟨rs, ws⟩
  rcases ws with _ | ⟨o, rest⟩
  · rfl
  · cases o <;> rfl

theorem withEvents_eq (pre : List Event) (r : Except String Unit × List Event) :
    withEvents pre r = (r.1, pre ++ r.2) := rfl

end Pop3

namespace Pop3

/-! ### Claim C3: the multi-line read strategy -/

/-- C3: for every predicate and sequence of read outcomes, `readLines`
returns the lines in the order received; it returns as soon as a line
satisfies the predicate, that line included as the last element; a timeout
or end-of-stream ends the collection as normal completion with the lines
accumulated so far and no error; any other read error is a hard failure
that discards the accumulated lines. -/
theorem readLines_spec (endCheck : String → Bool) :
    (∀ (pre : List String) (s : String) (post : List ReadOutcome),
       (∀ t ∈ pre, endCheck (goTrimSpace t) = false) →
       endCheck (goTrimSpace s) = true →
       (readLines endCheck (pre.map ReadOutcome.line ++ ReadOutcome.line s :: post)).1
         = Except.ok (pre.map goTrimSpace ++ [goTrimSpace s]))
  ∧ (∀ (pre : List String) (post : List ReadOutcome) (o : ReadOutcome),
       (∀ t ∈ pre, endCheck (goTrimSpace t) = false) →
       (o = ReadOutcome.timeout ∨ o = ReadOutcome.eof) →
       (readLines endCheck (pre.map ReadOutcome.line ++ o :: post)).1
         = Except.ok (pre.map goTrimSpace))
  ∧ (∀ (pre : List String) (post : List ReadOutcome) (e : String),
       (∀ t ∈ pre, endCheck (goTrimSpace t) = false) →
       (readLines endCheck (pre.map ReadOutcome.line ++ ReadOutcome.fail e :: post)).1
         = Except.error e) := by
  refine ⟨?_, ?_, ?_⟩
  · intro pre s post hpre hs
    induction pre with
    | nil => simp [readLines, hs]
    | cons a tl ih =>
      have ha : endCheck (goTrimSpace a) = false := hpre a (by simp)
      have ih2 := ih (fun t ht => hpre t (by simp [ht]))
      rcases hres : readLines endCheck (tl.map ReadOutcome.line ++ ReadOutcome.line s :: post)
        with ⟨r, rem⟩
      rw [hres] at ih2
      simp only [List.map_cons, List.cons_append, readLines, ha, Bool.false_eq_true,
        if_false, hres]
      rcases r with e | ls
      · simp at ih2
      · simp at ih2
        rw [List.append_eq, hres]
        simp [ih2]
  · intro pre post o hpre ho
    induction pre with
    | nil =>
      rcases ho with h | h <;> subst h <;> simp [readLines]
    | cons a tl ih =>
      have ha : endCheck (goTrimSpace a) = false := hpre a (by simp)
      have ih2 := ih (fun t ht => hpre t (by simp [ht]))
      rcases hres : readLines endCheck (tl.map ReadOutcome.line ++ o :: post) with ⟨r, rem⟩
      rw [hres] at ih2
      simp only [List.map_cons, List.cons_append, readLines, ha, Bool.false_eq_true,
        if_false, hres]
      rcases r with e | ls
      · simp at ih2
      · simp at ih2
        rw [List.append_eq, hres]
        simp [ih2]
  · intro pre post e hpre
    induction pre with
    | nil => simp [readLines]
    | cons a tl ih =>
      have ha : endCheck (goTrimSpace a) = false := hpre a (by simp)
      have ih2 := ih (fun t ht => hpre t (by simp [ht]))
      rcases hres : readLines endCheck (tl.map ReadOutcome.line ++ ReadOutcome.fail e :: post)
        with ⟨r, rem⟩
      rw [hres] at ih2
      simp only [List.map_cons, List.cons_append, readLines, ha, Bool.false_eq_true,
        if_false, hres]
      rcases r with e2 | ls
      · simp at ih2
        rw [List.append_eq, hres]
        simp [ih2]
      · simp at ih2

/-- Witness for C3: a concrete collection that stops at the first
`+OK`-prefixed line, keeping it as the last element. -/
theorem readLines_spec_witness :
    (readLines (fun s => goHasPrefix s "+OK")
        [ReadOutcome.line "a", ReadOutcome.line "+OK b", ReadOutcome.timeout]).1
      = Except.ok ["a", "+OK b"] := by
  have h := (readLines_spec (fun s => goHasPrefix s "+OK")).1 ["a"] "+OK b"
    [ReadOutcome.timeout] (by intro t ht; simp at ht; subst ht; rfl) rfl
  simpa using h

/-! ### Claim C8: an immediate timeout or EOF is an empty success -/

/-- C8: a timeout or end-of-stream on the very first read of a collection
cycle returns the empty line sequence with no error; the greeting step then
tells this empty success from a real greeting only by its line-count check,
failing with the line-count protocol error. -/
theorem readLines_collection_empty (endCheck : String → Bool) (rest : List ReadOutcome)
    (user pass : String) (warnSize quotaWarnSize : Int) (vb : Bool) (ws : List WriteResult) :
    readLines endCheck (ReadOutcome.timeout :: rest) = (Except.ok [], rest)
  ∧ readLines endCheck (ReadOutcome.eof :: rest) = (Except.ok [], rest)
  ∧ checkMailbox user pass warnSize quotaWarnSize vb ⟨ReadOutcome.timeout :: rest, ws⟩
      = (Except.error "Unexpected line count", []) :=
  ⟨rfl, rfl, rfl⟩

end Pop3

namespace Pop3

/-! ### Claim C1: the connection is never closed -/

theorem filter_isClose_vlog_ite (vb : Bool) (x : String) :
    (if vb then [Event.vlog x] else []).filter isClose = [] := by
  cases vb <;> rfl

theorem filter_isClose_warn_ite (c : Prop) [Decidable c] (i z : Int) :
    (if c then [Event.warnBig i z] else []).filter isClose = [] := by
  split <;> rfl

theorem filter_isClose_quota_ite (c : Prop) [Decidable c] (t : Int) :
    (if c then [Event.warnQuota t] else []).filter isClose = [] := by
  split <;> rfl

theorem writeLine_close_free (s : String) (vb : Bool) (w : World) :
    ((writeLine s vb w).2.2).filter isClose = [] := by
  rw [writeLine_evs, List.filter_append, filter_isClose_vlog_ite]
  rfl

theorem scanList_close_free (warnSize : Int) (vb : Bool) (ls : List String) (t : Int) :
    ((scanListLines warnSize vb ls t).2).filter isClose = [] := by
  induction ls generalizing t with
  | nil => rfl
  | cons l rest ih =>
    by_cases hskip : (goHasPrefix l "+OK" || l == ".") = true
    · simp only [scanListLines, hskip, if_true, List.filter_append,
        filter_isClose_vlog_ite, ih, List.append_nil]
    · rcases hs : sscanf2 l with e | ⟨id, size⟩
      · simp only [scanListLines, hskip, Bool.false_eq_true, if_false, hs,
          filter_isClose_vlog_ite]
      · simp only [scanListLines, hskip, Bool.false_eq_true, if_false, hs,
          List.filter_append, filter_isClose_vlog_ite, filter_isClose_warn_ite, ih,
          List.append_nil]

theorem listStep_close_free (warnSize quotaWarnSize : Int) (vb : Bool) (ls : List String) :
    ((listStep warnSize quotaWarnSize vb ls).2).filter isClose = [] := by
  have h := scanList_close_free warnSize vb ls 0
  rcases hsc : scanListLines warnSize vb ls 0 with ⟨r, evs⟩
  rw [hsc] at h
  rcases r with e | total
  · simpa [listStep, hsc] using h
  · simp only [listStep, hsc, List.filter_append, h, filter_isClose_vlog_ite,
      filter_isClose_quota_ite, List.append_nil]

theorem afterPass_close_free (warnSize quotaWarnSize : Int) (vb : Bool) (w : World) :
    ((afterPass warnSize quotaWarnSize vb w).2).filter isClose = [] := by
  rcases hw : writeLine "LIST" vb w with ⟨r0, w1, ev1⟩
  have h1 : ev1.filter isClose = [] := by
    have := writeLine_close_free "LIST" vb w
    rw [hw] at this
    exact this
  rcases hr : readLinesW (fun s => s == ".") w1 with ⟨r1, w2⟩
  rcases r1 with e | lines
  · simp [afterPass, hw, hr, withEvents, List.filter_append, h1]
  · simp [afterPass, hw, hr, withEvents, List.filter_append, h1,
      listStep_close_free]

theorem afterUser_close_free (pass : String) (warnSize quotaWarnSize : Int) (vb : Bool) (w : World) :
    ((afterUser pass warnSize quotaWarnSize vb w).2).filter isClose = [] := by
  rcases hw : writeLine ("PASS " ++ pass) vb w with ⟨r0, w1, ev1⟩
  have h1 : ev1.filter isClose = [] := by
    have := writeLine_close_free ("PASS " ++ pass) vb w
    rw [hw] at this
    exact this
  rcases r0 with e | u
  · simp [afterUser, hw, h1]
  · rcases hr : readLinesW (fun s => goHasPrefix s "+OK") w1 with ⟨r1, w2⟩
    rcases r1 with e | lines
    · simp [afterUser, hw, hr, withEvents, List.filter_append, h1]
    · rcases lines with _ | ⟨l, _ | ⟨l2, rest2⟩⟩
      · simp [afterUser, hw, hr, withEvents, List.filter_append, h1]
      · by_cases hpl : goHasPrefix l "+OK" = true
        · simp [afterUser, hw, hr, withEvents, List.filter_append, h1, hpl,
            afterPass_close_free]
        · simp [afterUser, hw, hr, withEvents, List.filter_append, h1, hpl]
      · simp [afterUser, hw, hr, withEvents, List.filter_append, h1]

theorem afterGreeting_close_free (user pass : String) (warnSize quotaWarnSize : Int) (vb : Bool) (w : World) :
    ((afterGreeting user pass warnSize quotaWarnSize vb w).2).filter isClose = [] := by
  rcases hw : writeLine ("USER " ++ user) vb w with ⟨r0, w1, ev1⟩
  have h1 : ev1.filter isClose = [] := by
    have := writeLine_close_free ("USER " ++ user) vb w
    rw [hw] at this
    exact this
  rcases r0 with e | u
  · simp [afterGreeting, hw, h1]
  · rcases hr : readLinesW (fun s => goHasPrefix s "+OK") w1 with ⟨r1, w2⟩
    rcases r1 with e | lines
    · simp [afterGreeting, hw, hr, withEvents, List.filter_append, h1]
    · rcases lines with _ | ⟨l, _ | ⟨l2, rest2⟩⟩
      · simp [afterGreeting, hw, hr, withEvents, List.filter_append, h1]
      · by_cases hpl : goHasPrefix l "+OK" = true
        · simp [afterGreeting, hw, hr, withEvents, List.filter_append, h1, hpl,
            afterUser_close_free]
        · simp [afterGreeting, hw, hr, withEvents, List.filter_append, h1, hpl]
      · simp [afterGreeting, hw, hr, withEvents, List.filter_append, h1]

/-- C1 (settled against the code): `checkMailbox` emits no `Event.close` on
any path, success or failure - the source defines `Conn.Close` but never
calls it, so the connection is still open when the check returns. -/
theorem checkMailbox_never_closes (user pass : String) (warnSize quotaWarnSize : Int) (vb : Bool) (w : World) :
    ((checkMailbox user pass warnSize quotaWarnSize vb w).2).filter isClose = [] := by
  rcases hr : readLinesW (fun s => goHasPrefix s "+OK") w with ⟨r1, w1⟩
  rcases r1 with e | lines
  · simp [checkMailbox, hr]
  · rcases lines with _ | ⟨l, _ | ⟨l2, rest2⟩⟩
    · simp [checkMailbox, hr]
    · by_cases hpl : goHasPrefix l "+OK " = true
      · simp [checkMailbox, hr, hpl, afterGreeting_close_free]
      · simp [checkMailbox, hr, hpl]
    · simp [checkMailbox, hr]

end Pop3

namespace Pop3

/-! ### Claim C5: per-message warnings, total size and the quota warning -/

theorem filter_isBigWarn_vlog_ite (vb : Bool) (x : String) :
    (if vb then [Event.vlog x] else []).filter isBigWarn = [] := by
  cases vb <;> rfl

theorem filter_isBigWarn_warn_ite (c : Prop) [Decidable c] (i z : Int) :
    (if c then [Event.warnBig i z] else []).filter isBigWarn
      = (if c then [Event.warnBig i z] else []) := by
  split <;> rfl

theorem bigWarnEvents_cons (warnSize id size : Int) (es : List (Int × Int)) :
    bigWarnEvents warnSize ((id, size) :: es)
      = (if size > warnSize then [Event.warnBig id size] else [])
        ++ bigWarnEvents warnSize es := by
  by_cases h : size > warnSize
  · simp [bigWarnEvents, List.filter_cons, h]
  · simp [bigWarnEvents, List.filter_cons, h]

theorem scanList_parse_ok (warnSize : Int) (vb : Bool) (ls : List String) :
    ∀ (es : List (Int × Int)) (t : Int), parseEntries ls = some es →
      (scanListLines warnSize vb ls t).1 = Except.ok (wrapSum t es)
    ∧ ((scanListLines warnSize vb ls t).2).filter isBigWarn = bigWarnEvents warnSize es := by
  induction ls with
  | nil =>
    intro es t hp
    simp only [parseEntries, Option.some.injEq] at hp
    subst hp
    simp [scanListLines, wrapSum, bigWarnEvents]
  | cons l rest ih =>
    intro es t hp
    by_cases hskip : (goHasPrefix l "+OK" || l == ".") = true
    · simp only [parseEntries, hskip, if_true] at hp
      refine ⟨?_, ?_⟩
      · simpa [scanListLines, hskip] using (ih es t hp).1
      · simp [scanListLines, hskip, List.filter_append, filter_isBigWarn_vlog_ite,
          (ih es t hp).2]
    · rcases hs : sscanf2 l with e | ⟨id, size⟩
      · simp [parseEntries, hskip, hs] at hp
      · simp only [parseEntries, hskip, Bool.false_eq_true, if_false, hs] at hp
        rcases hrest : parseEntries rest with _ | es'
        · rw [hrest] at hp
          simp at hp
        · rw [hrest] at hp
          simp only [Option.map_some', Option.some.injEq] at hp
          subst hp
          obtain ⟨h1, h2⟩ := ih es' (wrap64 (t + size)) hrest
          refine ⟨?_, ?_⟩
          · simp only [scanListLines, hskip, Bool.false_eq_true, if_false, hs]
            rw [h1]
            congr 1
          · simp only [scanListLines, hskip, Bool.false_eq_true, if_false, hs,
              List.filter_append, filter_isBigWarn_vlog_ite, filter_isBigWarn_warn_ite,
              h2, bigWarnEvents_cons, List.nil_append]

theorem filter_isQuotaWarn_vlog_ite (vb : Bool) (x : String) :
    (if vb then [Event.vlog x] else []).filter isQuotaWarn = [] := by
  cases vb <;> rfl

theorem filter_isQuotaWarn_warn_ite (c : Prop) [Decidable c] (i z : Int) :
    (if c then [Event.warnBig i z] else []).filter isQuotaWarn = [] := by
  split <;> rfl

theorem scanList_no_quota (warnSize : Int) (vb : Bool) (ls : List String) (t : Int) :
    ((scanListLines warnSize vb ls t).2).filter isQuotaWarn = [] := by
  induction ls generalizing t with
  | nil => rfl
  | cons l rest ih =>
    by_cases hskip : (goHasPrefix l "+OK" || l == ".") = true
    · simp only [scanListLines, hskip, if_true, List.filter_append,
        filter_isQuotaWarn_vlog_ite, ih, List.append_nil]
    · rcases hs : sscanf2 l with e | ⟨id, size⟩
      · simp only [scanListLines, hskip, Bool.false_eq_true, if_false, hs,
          filter_isQuotaWarn_vlog_ite]
      · simp only [scanListLines, hskip, Bool.false_eq_true, if_false, hs,
          List.filter_append, filter_isQuotaWarn_vlog_ite, filter_isQuotaWarn_warn_ite,
          ih, List.append_nil]

/-- C5 as amended: over any well-parsed LIST response, the entry loop
computes the total as the source's 64-bit signed accumulation of all entry
sizes (greeting and terminator excluded, no entry counted twice; equal to
the exact sum whenever every running total fits in `int`, as in the spec's
example), emits a per-message warning exactly for the entries whose size
strictly exceeds the warn threshold, and the quota warning is emitted if
and only if that accumulated total strictly exceeds the quota threshold. -/
theorem listStep_evaluate (warnSize quotaWarnSize : Int) (vb : Bool) (lines : List String)
    (es : List (Int × Int)) (hp : parseEntries lines = some es) :
    (scanListLines warnSize vb lines 0).1 = Except.ok (wrapSum 0 es)
  ∧ ((scanListLines warnSize vb lines 0).2).filter isBigWarn = bigWarnEvents warnSize es
  ∧ (Event.warnQuota (wrapSum 0 es) ∈ (listStep warnSize quotaWarnSize vb lines).2
       ↔ wrapSum 0 es > quotaWarnSize) := by
  obtain ⟨h1, h2⟩ := scanList_parse_ok warnSize vb lines es 0 hp
  have hq := scanList_no_quota warnSize vb lines 0
  refine ⟨h1, h2, ?_⟩
  rcases hsc : scanListLines warnSize vb lines 0 with ⟨r, evs⟩
  rw [hsc] at h1 hq
  simp only at h1 hq
  subst h1
  have hno : Event.warnQuota (wrapSum 0 es) ∉ evs := by
    intro hm
    have : Event.warnQuota (wrapSum 0 es) ∈ evs.filter isQuotaWarn :=
      List.mem_filter.mpr ⟨hm, rfl⟩
    rw [hq] at this
    exact List.not_mem_nil _ this
  by_cases hc : wrapSum 0 es > quotaWarnSize
  · simp [listStep, hsc, List.mem_append, hc]
  · simp [listStep, hsc, List.mem_append, hc, hno]

/-- Counterexample to C5 as stated: two maximal entries wrap the source's
64-bit total to -2, which is not the exact sum 18446744073709551614 of the
entry sizes, and the quota warning is suppressed although the exact sum
far exceeds the threshold 100. -/
theorem listStep_wrap_cex :
    parseEntries ["+OK", "1 9223372036854775807", "2 9223372036854775807", "."]
      = some [(1, 9223372036854775807), (2, 9223372036854775807)]
  ∧ (scanListLines 9223372036854775807 false
        ["+OK", "1 9223372036854775807", "2 9223372036854775807", "."] 0).1
      = Except.ok (-2)
  ∧ sumSizes [((1 : Int), (9223372036854775807 : Int)), (2, 9223372036854775807)]
      = 18446744073709551614
  ∧ ((listStep 9223372036854775807 100 false
        ["+OK", "1 9223372036854775807", "2 9223372036854775807", "."]).2).filter isQuotaWarn
      = [] :=
  ⟨rfl, rfl, rfl, rfl⟩

/-- Witness for C5: the spec's own example, sizes 1024 and 6000000 with
warn threshold 5000000 and quota threshold 6000000 - every running total
fits in `int`, so the accumulated total is the exact sum 6001024. -/
theorem listStep_evaluate_witness :
    (scanListLines 5000000 false ["+OK 2 messages", "1 1024", "2 6000000", "."] 0).1
      = Except.ok 6001024
  ∧ ((scanListLines 5000000 false ["+OK 2 messages", "1 1024", "2 6000000", "."] 0).2).filter isBigWarn
      = [Event.warnBig 2 6000000]
  ∧ (Event.warnQuota 6001024
       ∈ (listStep 5000000 6000000 false ["+OK 2 messages", "1 1024", "2 6000000", "."]).2
       ↔ (6001024 : Int) > 6000000) := by
  have h := listStep_evaluate 5000000 6000000 false
    ["+OK 2 messages", "1 1024", "2 6000000", "."] [(1, 1024), (2, 6000000)] rfl
  have e1 : wrapSum 0 [((1 : Int), (1024 : Int)), (2, 6000000)] = 6001024 := rfl
  have e2 : bigWarnEvents 5000000 [((1 : Int), (1024 : Int)), (2, 6000000)]
      = [Event.warnBig 2 6000000] := rfl
  rw [e1, e2] at h
  exact h

end Pop3

namespace Pop3

/-! ### Claim C4: a malformed LIST line aborts the check -/

theorem scanList_abort_aux (warnSize : Int) (vb : Bool) (l : String) (post : List String)
    (hskip : (goHasPrefix l "+OK" || l == ".") = false)
    (hbad : ∃ msg, sscanf2 l = Except.error msg) (pre : List String) :
    ∀ (es : List (Int × Int)) (t : Int), parseEntries pre = some es →
      (scanListLines warnSize vb (pre ++ l :: post) t).1
        = Except.error "Unable to parse LIST line"
    ∧ ((scanListLines warnSize vb (pre ++ l :: post) t).2).filter isBigWarn
        = bigWarnEvents warnSize es := by
  obtain ⟨msg, hmsg⟩ := hbad
  induction pre with
  | nil =>
    intro es t hp
    simp only [parseEntries, Option.some.injEq] at hp
    subst hp
    simp [scanListLines, hskip, hmsg, filter_isBigWarn_vlog_ite, bigWarnEvents]
  | cons p ps ih =>
    intro es t hp
    by_cases hp_skip : (goHasPrefix p "+OK" || p == ".") = true
    · simp only [parseEntries, hp_skip, if_true] at hp
      refine ⟨?_, ?_⟩
      · simpa [scanListLines, hp_skip] using (ih es t hp).1
      · simp [scanListLines, hp_skip, List.filter_append, filter_isBigWarn_vlog_ite,
          (ih es t hp).2]
    · rcases hs : sscanf2 p with e | ⟨id, size⟩
      · simp [parseEntries, hp_skip, hs] at hp
      · simp only [parseEntries, hp_skip, Bool.false_eq_true, if_false, hs] at hp
        rcases hrest : parseEntries ps with _ | es'
        · rw [hrest] at hp
          simp at hp
        · rw [hrest] at hp
          simp only [Option.map_some', Option.some.injEq] at hp
          subst hp
          obtain ⟨h1, h2⟩ := ih es' (wrap64 (t + size)) hrest
          refine ⟨?_, ?_⟩
          · simpa [scanListLines, hp_skip, hs] using h1
          · simp only [List.cons_append, scanListLines, hp_skip, Bool.false_eq_true,
              if_false, hs, List.filter_append, filter_isBigWarn_vlog_ite,
              filter_isBigWarn_warn_ite, List.append_eq, h2, bigWarnEvents_cons,
              List.nil_append]

/-- C4 as amended: a collected line that neither starts with `+OK` (at any
position, not only the leading line) nor equals `.` must begin with two
whitespace-separated integers within the 64-bit `int` range (`sscanf2`;
trailing content after the second integer is ignored); the first such line
that does not - a malformed or an out-of-range token alike - aborts the
whole check with the parse error, and no entries after it are processed or
counted: the warnings are exactly those of the entries before it and no
total is produced. -/
theorem scanList_parse_abort (warnSize : Int) (vb : Bool) (pre : List String) (l : String)
    (post : List String) (es : List (Int × Int))
    (hpre : parseEntries pre = some es)
    (hskip : (goHasPrefix l "+OK" || l == ".") = false)
    (hbad : ∃ msg, sscanf2 l = Except.error msg) :
    (scanListLines warnSize vb (pre ++ l :: post) 0).1
      = Except.error "Unable to parse LIST line"
  ∧ ((scanListLines warnSize vb (pre ++ l :: post) 0).2).filter isBigWarn
      = bigWarnEvents warnSize es :=
  scanList_abort_aux warnSize vb l post hskip hbad pre es 0 hpre

/-- Witness for C4's amended claim: the line `not-a-number` aborts the loop
after the well-formed entry `1 10`, with the later entry `99 99` never
processed; a size one past the largest `int` aborts the same way. -/
theorem scanList_parse_abort_witness :
    ((scanListLines 50 false (["+OK 2", "1 10"] ++ "not-a-number" :: ["99 99", "."]) 0).1
      = Except.error "Unable to parse LIST line"
  ∧ ((scanListLines 50 false (["+OK 2", "1 10"] ++ "not-a-number" :: ["99 99", "."]) 0).2).filter isBigWarn
      = bigWarnEvents 50 [(1, 10)])
  ∧ (scanListLines 50 false
        (["+OK 2", "1 10"] ++ "5 9223372036854775808" :: ["99 99", "."]) 0).1
      = Except.error "Unable to parse LIST line" :=
  ⟨scanList_parse_abort 50 false ["+OK 2", "1 10"] "not-a-number" ["99 99", "."]
     [(1, 10)] rfl rfl ⟨"expected integer", rfl⟩,
   (scanList_parse_abort 50 false ["+OK 2", "1 10"] "5 9223372036854775808" ["99 99", "."]
     [(1, 10)] rfl rfl ⟨"expected integer", rfl⟩).1⟩

/-- Counterexample to C4 as stated, in both directions the code deviates:
in `["+OK 2", "1 10", "+OK x", "."]` the line `+OK x` is not the leading
`+OK` line and not the `.` terminator and does not decompose into exactly
two whitespace-separated integers, yet the check does not abort - the loop
skips every `+OK`-prefixed line wherever it occurs and completes with
total 10; and in `["+OK 2", "1 10", "2 20 junk", "."]` the line
`2 20 junk` does not decompose into exactly two integers either, yet it is
accepted and counted as the entry (2, 20), the run completing with total
30. -/
theorem scanList_nonleading_ok_cex :
    (scanListLines 50 false ["+OK 2", "1 10", "+OK x", "."] 0 = (Except.ok 10, [])
  ∧ decomposesAsTwoInts "+OK x" = false
  ∧ goHasPrefix "+OK x" "+OK" = true)
  ∧ (scanListLines 50 false ["+OK 2", "1 10", "2 20 junk", "."] 0 = (Except.ok 30, [])
  ∧ decomposesAsTwoInts "2 20 junk" = false
  ∧ sscanf2 "2 20 junk" = Except.ok (2, 20)) :=
  ⟨⟨rfl, rfl, rfl⟩, ⟨rfl, rfl, rfl⟩⟩

/-! ### Claim C9: negative sizes are accepted and counted -/

/-- C9: the LIST entry parser accepts negative integers; with any positive
warn threshold an entry of size -500 draws no per-message warning, yet its
size joins the running total, which here comes out -400: negative, and
smaller than 100, the sum of the non-negative entry sizes. -/
theorem scanList_negative_size (warnSize : Int) (hw : 0 < warnSize) :
    sscanf2 "2 -500" = Except.ok (2, -500)
  ∧ (scanListLines warnSize false ["+OK", "1 100", "2 -500", "."] 0).1 = Except.ok (-400)
  ∧ Event.warnBig 2 (-500) ∉ (scanListLines warnSize false ["+OK", "1 100", "2 -500", "."] 0).2
  ∧ ((-400 : Int) < 0 ∧ (-400 : Int) < 100) := by
  have e1 : (goHasPrefix "+OK" "+OK" || "+OK" == ".") = true := rfl
  have e2 : (goHasPrefix "1 100" "+OK" || "1 100" == ".") = false := rfl
  have e3 : sscanf2 "1 100" = Except.ok (1, 100) := rfl
  have e4 : (goHasPrefix "2 -500" "+OK" || "2 -500" == ".") = false := rfl
  have e5 : sscanf2 "2 -500" = Except.ok (2, -500) := rfl
  have e6 : (goHasPrefix "." "+OK" || "." == ".") = true := rfl
  refine ⟨e5, ?_, ?_, by norm_num, by norm_num⟩
  · simp only [scanListLines, e1, e2, e3, e4, e5, e6, if_true, if_false]
    norm_num
    decide
  · simp only [scanListLines, e1, e2, e3, e4, e5, e6, if_true, if_false]
    simp only [List.mem_append, List.nil_append, List.append_nil]
    intro hmem
    rcases hmem with h | h
    · by_cases h1 : (100 : Int) > warnSize
      · simp [h1] at h
      · simp [h1] at h
    · by_cases h2 : (-500 : Int) > warnSize
      · omega
      · simp [h2] at h

end Pop3

namespace Pop3

/-! ### Claims C6 and C7: the greeting and authentication gates -/

theorem afterPass_list_mem (warnSize quotaWarnSize : Int) (vb : Bool) (w : World) :
    Event.write "LIST" ∈ (afterPass warnSize quotaWarnSize vb w).2 := by
  rcases hw : writeLine "LIST" vb w with ⟨r0, w1, ev1⟩
  have hmem : Event.write "LIST" ∈ ev1 := by
    have := writeLine_write_mem "LIST" vb w
    rw [hw] at this
    exact this
  rcases hr : readLinesW (fun s => s == ".") w1 with ⟨r1, w2⟩
  rcases r1 with e | lines
  · simp [afterPass, hw, hr, withEvents]
    simp [hmem]
  · simp [afterPass, hw, hr, withEvents]
    simp [hmem]

theorem afterUser_pass_mem (pass : String) (warnSize quotaWarnSize : Int) (vb : Bool) (w : World) :
    Event.write ("PASS " ++ pass) ∈ (afterUser pass warnSize quotaWarnSize vb w).2 := by
  rcases hw : writeLine ("PASS " ++ pass) vb w with ⟨r0, w1, ev1⟩
  have hmem : Event.write ("PASS " ++ pass) ∈ ev1 := by
    have := writeLine_write_mem ("PASS " ++ pass) vb w
    rw [hw] at this
    exact this
  rcases r0 with e | u
  · simpa [afterUser, hw] using hmem
  · rcases hr : readLinesW (fun s => goHasPrefix s "+OK") w1 with ⟨r1, w2⟩
    rcases r1 with e | lines
    · simp [afterUser, hw, hr, withEvents]
      simp [hmem]
    · rcases lines with _ | ⟨l, _ | ⟨l2, rest2⟩⟩
      · simp [afterUser, hw, hr, withEvents]
        simp [hmem]
      · by_cases hpl : goHasPrefix l "+OK" = true
        · simp [afterUser, hw, hr, withEvents, hpl]
          simp [hmem]
        · simp [afterUser, hw, hr, withEvents, hpl]
          simp [hmem]
      · simp [afterUser, hw, hr, withEvents]
        simp [hmem]

theorem afterGreeting_user_mem (user pass : String) (warnSize quotaWarnSize : Int) (vb : Bool) (w : World) :
    Event.write ("USER " ++ user) ∈ (afterGreeting user pass warnSize quotaWarnSize vb w).2 := by
  rcases hw : writeLine ("USER " ++ user) vb w with ⟨r0, w1, ev1⟩
  have hmem : Event.write ("USER " ++ user) ∈ ev1 := by
    have := writeLine_write_mem ("USER " ++ user) vb w
    rw [hw] at this
    exact this
  rcases r0 with e | u
  · simpa [afterGreeting, hw] using hmem
  · rcases hr : readLinesW (fun s => goHasPrefix s "+OK") w1 with ⟨r1, w2⟩
    rcases r1 with e | lines
    · simp [afterGreeting, hw, hr, withEvents]
      simp [hmem]
    · rcases lines with _ | ⟨l, _ | ⟨l2, rest2⟩⟩
      · simp [afterGreeting, hw, hr, withEvents]
        simp [hmem]
      · by_cases hpl : goHasPrefix l "+OK" = true
        · simp [afterGreeting, hw, hr, withEvents, hpl]
          simp [hmem]
        · simp [afterGreeting, hw, hr, withEvents, hpl]
          simp [hmem]
      · simp [afterGreeting, hw, hr, withEvents]
        simp [hmem]

/-- C6: after connecting, the checker reads lines until one begins with
`+OK`; it proceeds to authentication (the `USER` command is sent) when
exactly one line was returned and it begins with `+OK ` (trailing space
included); a single line without the `+OK `-prefix fails with the
`Invalid greeting` protocol error, a line count other than one fails with
the `Unexpected line count` protocol error, and a hard read error fails
with that error - in every failure case with no command sent (no events at
all). -/
theorem checkMailbox_greeting_gate (user pass : String) (warnSize quotaWarnSize : Int)
    (vb : Bool) (w : World) :
    (∀ (l : String) (rest : List ReadOutcome),
       readLines (fun s => goHasPrefix s "+OK") w.reads = (Except.ok [l], rest) →
       goHasPrefix l "+OK " = true →
       Event.write ("USER " ++ user) ∈ (checkMailbox user pass warnSize quotaWarnSize vb w).2)
  ∧ (∀ (l : String) (rest : List ReadOutcome),
       readLines (fun s => goHasPrefix s "+OK") w.reads = (Except.ok [l], rest) →
       goHasPrefix l "+OK " = false →
       checkMailbox user pass warnSize quotaWarnSize vb w = (Except.error "Invalid greeting", []))
  ∧ (∀ (lines : List String) (rest : List ReadOutcome),
       readLines (fun s => goHasPrefix s "+OK") w.reads = (Except.ok lines, rest) →
       lines.length ≠ 1 →
       checkMailbox user pass warnSize quotaWarnSize vb w
         = (Except.error "Unexpected line count", []))
  ∧ (∀ (e : String) (rest : List ReadOutcome),
       readLines (fun s => goHasPrefix s "+OK") w.reads = (Except.error e, rest) →
       checkMailbox user pass warnSize quotaWarnSize vb w = (Except.error e, [])) := by
  refine ⟨?_, ?_, ?_, ?_⟩
  · intro l rest h hpre
    have hrw : readLinesW (fun s => goHasPrefix s "+OK") w = (Except.ok [l], ⟨rest, w.writes⟩) := by
      simp [readLinesW, h]
    simp only [checkMailbox, hrw, hpre, if_true]
    exact afterGreeting_user_mem user pass warnSize quotaWarnSize vb ⟨rest, w.writes⟩
  · intro l rest h hpre
    have hrw : readLinesW (fun s => goHasPrefix s "+OK") w = (Except.ok [l], ⟨rest, w.writes⟩) := by
      simp [readLinesW, h]
    simp [checkMailbox, hrw, hpre]
  · intro lines rest h hlen
    have hrw : readLinesW (fun s => goHasPrefix s "+OK") w = (Except.ok lines, ⟨rest, w.writes⟩) := by
      simp [readLinesW, h]
    rcases lines with _ | ⟨l, _ | ⟨l2, rest2⟩⟩
    · simp [checkMailbox, hrw]
    · simp at hlen
    · simp [checkMailbox, hrw]
  · intro e rest h
    have hrw : readLinesW (fun s => goHasPrefix s "+OK") w = (Except.error e, ⟨rest, w.writes⟩) := by
      simp [readLinesW, h]
    simp [checkMailbox, hrw]

/-- Witness for C6: a one-line `+OK hello` greeting makes the checker send
the USER command. -/
theorem checkMailbox_greeting_gate_witness :
    Event.write "USER u"
      ∈ (checkMailbox "u" "p" 5 5 false ⟨[ReadOutcome.line "+OK hello"], []⟩).2 := by
  have h := (checkMailbox_greeting_gate "u" "p" 5 5 false
    ⟨[ReadOutcome.line "+OK hello"], []⟩).1 "+OK hello" [] rfl rfl
  exact h

end Pop3

namespace Pop3

/-- C7: for the USER exchange and the PASS exchange alike, once the command
was written the check proceeds (the next command is sent) exactly when the
collection returned one single line and that line begins with `+OK`;
a single non-`+OK` line, or a count of zero or of two and more, fails the
check at that step with the source's authentication error (`Unexpected
user respose` / `Unexpected PASS respose`). -/
theorem checkMailbox_auth_gates (user pass : String) (warnSize quotaWarnSize : Int)
    (vb : Bool) (w : World) :
    (∀ (w1 : World) (ev1 : List Event) (l : String) (w2 : World),
       writeLine ("USER " ++ user) vb w = (Except.ok (), w1, ev1) →
       readLinesW (fun s => goHasPrefix s "+OK") w1 = (Except.ok [l], w2) →
       goHasPrefix l "+OK" = true →
       Event.write ("PASS " ++ pass) ∈ (afterGreeting user pass warnSize quotaWarnSize vb w).2)
  ∧ (∀ (w1 : World) (ev1 : List Event) (l : String) (w2 : World),
       writeLine ("USER " ++ user) vb w = (Except.ok (), w1, ev1) →
       readLinesW (fun s => goHasPrefix s "+OK") w1 = (Except.ok [l], w2) →
       goHasPrefix l "+OK" = false →
       afterGreeting user pass warnSize quotaWarnSize vb w
         = (Except.error "Unexpected user respose", ev1))
  ∧ (∀ (w1 : World) (ev1 : List Event) (lines : List String) (w2 : World),
       writeLine ("USER " ++ user) vb w = (Except.ok (), w1, ev1) →
       readLinesW (fun s => goHasPrefix s "+OK") w1 = (Except.ok lines, w2) →
       lines.length ≠ 1 →
       afterGreeting user pass warnSize quotaWarnSize vb w
         = (Except.error "Unexpected user respose", ev1))
  ∧ (∀ (w1 : World) (ev1 : List Event) (l : String) (w2 : World),
       writeLine ("PASS " ++ pass) vb w = (Except.ok (), w1, ev1) →
       readLinesW (fun s => goHasPrefix s "+OK") w1 = (Except.ok [l], w2) →
       goHasPrefix l "+OK" = true →
       Event.write "LIST" ∈ (afterUser pass warnSize quotaWarnSize vb w).2)
  ∧ (∀ (w1 : World) (ev1 : List Event) (l : String) (w2 : World),
       writeLine ("PASS " ++ pass) vb w = (Except.ok (), w1, ev1) →
       readLinesW (fun s => goHasPrefix s "+OK") w1 = (Except.ok [l], w2) →
       goHasPrefix l "+OK" = false →
       afterUser pass warnSize quotaWarnSize vb w
         = (Except.error "Unexpected PASS respose", ev1))
  ∧ (∀ (w1 : World) (ev1 : List Event) (lines : List String) (w2 : World),
       writeLine ("PASS " ++ pass) vb w = (Except.ok (), w1, ev1) →
       readLinesW (fun s => goHasPrefix s "+OK") w1 = (Except.ok lines, w2) →
       lines.length ≠ 1 →
       afterUser pass warnSize quotaWarnSize vb w
         = (Except.error "Unexpected PASS respose", ev1)) := by
  refine ⟨?_, ?_, ?_, ?_, ?_, ?_⟩
  · intro w1 ev1 l w2 hw hr hpl
    simp only [afterGreeting, hw, hr, hpl, if_true, withEvents]
    simp [afterUser_pass_mem pass warnSize quotaWarnSize vb w2]
  · intro w1 ev1 l w2 hw hr hpl
    simp [afterGreeting, hw, hr, hpl, withEvents]
  · intro w1 ev1 lines w2 hw hr hlen
    rcases lines with _ | ⟨l, _ | ⟨l2, rest2⟩⟩
    · simp [afterGreeting, hw, hr, withEvents]
    · simp at hlen
    · simp [afterGreeting, hw, hr, withEvents]
  · intro w1 ev1 l w2 hw hr hpl
    simp only [afterUser, hw, hr, hpl, if_true, withEvents]
    simp [afterPass_list_mem warnSize quotaWarnSize vb w2]
  · intro w1 ev1 l w2 hw hr hpl
    simp [afterUser, hw, hr, hpl, withEvents]
  · intro w1 ev1 lines w2 hw hr hlen
    rcases lines with _ | ⟨l, _ | ⟨l2, rest2⟩⟩
    · simp [afterUser, hw, hr, withEvents]
    · simp at hlen
    · simp [afterUser, hw, hr, withEvents]

/-- Witness for C7: with a single `+OK` reply to USER, the PASS command is
sent. -/
theorem checkMailbox_auth_gates_witness :
    Event.write "PASS p"
      ∈ (afterGreeting "u" "p" 5 5 false ⟨[ReadOutcome.line "+OK"], []⟩).2 := by
  have h := (checkMailbox_auth_gates "u" "p" 5 5 false ⟨[ReadOutcome.line "+OK"], []⟩).1
    ⟨[ReadOutcome.line "+OK"], []⟩ [Event.write "USER u"] "+OK" ⟨[], []⟩ rfl rfl rfl
  exact h

end Pop3

namespace Pop3

/-! ### Claim C2: which write errors abort the check -/

theorem filter_isWrite_vlog_ite (vb : Bool) (x : String) :
    (if vb then [Event.vlog x] else []).filter isWrite = [] := by
  cases vb <;> rfl

theorem writeLine_filter_isWrite (s : String) (vb : Bool) (w : World) :
    ((writeLine s vb w).2.2).filter isWrite = [Event.write s] := by
  rw [writeLine_evs, List.filter_append, filter_isWrite_vlog_ite]
  rfl

theorem afterPass_writes_tail (warnSize quotaWarnSize : Int) (vb : Bool)
    (reads : List ReadOutcome) (o o' : WriteResult) :
    afterPass warnSize quotaWarnSize vb ⟨reads, [o]⟩
      = afterPass warnSize quotaWarnSize vb ⟨reads, [o']⟩ := by
  cases o <;> cases o' <;> rfl

theorem afterUser_writes_tail (pass : String) (warnSize quotaWarnSize : Int) (vb : Bool)
    (reads : List ReadOutcome) (o2 o3 o3' : WriteResult) :
    afterUser pass warnSize quotaWarnSize vb ⟨reads, [o2, o3]⟩
      = afterUser pass warnSize quotaWarnSize vb ⟨reads, [o2, o3']⟩ := by
  cases o2 with
  | wErr e => rfl
  | fErr e => rfl
  | ok =>
    rcases hr : readLines (fun s => goHasPrefix s "+OK") reads with ⟨r1, rem⟩
    have hrw : readLinesW (fun s => goHasPrefix s "+OK") ⟨reads, [o3]⟩ = (r1, ⟨rem, [o3]⟩) := by
      simp [readLinesW, hr]
    have hrw' : readLinesW (fun s => goHasPrefix s "+OK") ⟨reads, [o3']⟩ = (r1, ⟨rem, [o3']⟩) := by
      simp [readLinesW, hr]
    rcases r1 with e | lines
    · simp [afterUser, writeLine, hrw, hrw']
    · rcases lines with _ | ⟨l, _ | ⟨l2, rest2⟩⟩
      · simp [afterUser, writeLine, hrw, hrw']
      · by_cases hpl : goHasPrefix l "+OK" = true
        · simp only [afterUser, writeLine, hrw, hrw', hpl, if_true, withEvents]
          rw [afterPass_writes_tail warnSize quotaWarnSize vb rem o3 o3']
        · simp [afterUser, writeLine, hrw, hrw', hpl]
      · simp [afterUser, writeLine, hrw, hrw']

theorem afterGreeting_writes_tail (user pass : String) (warnSize quotaWarnSize : Int) (vb : Bool)
    (reads : List ReadOutcome) (o1 o2 o3 o3' : WriteResult) :
    afterGreeting user pass warnSize quotaWarnSize vb ⟨reads, [o1, o2, o3]⟩
      = afterGreeting user pass warnSize quotaWarnSize vb ⟨reads, [o1, o2, o3']⟩ := by
  cases o1 with
  | wErr e => rfl
  | fErr e => rfl
  | ok =>
    rcases hr : readLines (fun s => goHasPrefix s "+OK") reads with ⟨r1, rem⟩
    have hrw : readLinesW (fun s => goHasPrefix s "+OK") ⟨reads, [o2, o3]⟩
        = (r1, ⟨rem, [o2, o3]⟩) := by
      simp [readLinesW, hr]
    have hrw' : readLinesW (fun s => goHasPrefix s "+OK") ⟨reads, [o2, o3']⟩
        = (r1, ⟨rem, [o2, o3']⟩) := by
      simp [readLinesW, hr]
    rcases r1 with e | lines
    · simp [afterGreeting, writeLine, hrw, hrw']
    · rcases lines with _ | ⟨l, _ | ⟨l2, rest2⟩⟩
      · simp [afterGreeting, writeLine, hrw, hrw']
      · by_cases hpl : goHasPrefix l "+OK" = true
        · simp only [afterGreeting, writeLine, hrw, hrw', hpl, if_true, withEvents]
          rw [afterUser_writes_tail pass warnSize quotaWarnSize vb rem o2 o3 o3']
        · simp [afterGreeting, writeLine, hrw, hrw', hpl]
      · simp [afterGreeting, writeLine, hrw, hrw']

/-- C2 as amended: the LIST write is the one protocol step whose error does
not abort the check - its outcome (the third write of the session) is
discarded, so the run is identical whatever that write returns, and the
LIST response is read regardless; the USER and PASS writes do abort: an
error there ends the check with that very error, with no later command
written (the write events stop at the failed command). -/
theorem checkMailbox_write_error_semantics (user pass : String) (warnSize quotaWarnSize : Int)
    (vb : Bool) (reads : List ReadOutcome) :
    (∀ (o1 o2 o3 o3' : WriteResult),
       checkMailbox user pass warnSize quotaWarnSize vb ⟨reads, [o1, o2, o3]⟩
         = checkMailbox user pass warnSize quotaWarnSize vb ⟨reads, [o1, o2, o3']⟩)
  ∧ (∀ (e : String) (o1 o2 o3 : WriteResult),
       (o1 = WriteResult.wErr e ∨ o1 = WriteResult.fErr e) →
       ∀ (l : String) (rest : List ReadOutcome),
       readLines (fun s => goHasPrefix s "+OK") reads = (Except.ok [l], rest) →
       goHasPrefix l "+OK " = true →
       (checkMailbox user pass warnSize quotaWarnSize vb ⟨reads, [o1, o2, o3]⟩).1
           = Except.error e
       ∧ ((checkMailbox user pass warnSize quotaWarnSize vb ⟨reads, [o1, o2, o3]⟩).2).filter isWrite
           = [Event.write ("USER " ++ user)])
  ∧ (∀ (e : String) (o2 o3 : WriteResult),
       (o2 = WriteResult.wErr e ∨ o2 = WriteResult.fErr e) →
       ∀ (l l2 : String) (rest rest2 : List ReadOutcome),
       readLines (fun s => goHasPrefix s "+OK") reads = (Except.ok [l], rest) →
       goHasPrefix l "+OK " = true →
       readLines (fun s => goHasPrefix s "+OK") rest = (Except.ok [l2], rest2) →
       goHasPrefix l2 "+OK" = true →
       (checkMailbox user pass warnSize quotaWarnSize vb ⟨reads, [WriteResult.ok, o2, o3]⟩).1
           = Except.error e
       ∧ ((checkMailbox user pass warnSize quotaWarnSize vb
             ⟨reads, [WriteResult.ok, o2, o3]⟩).2).filter isWrite
           = [Event.write ("USER " ++ user), Event.write ("PASS " ++ pass)]) := by
  refine ⟨?_, ?_, ?_⟩
  · intro o1 o2 o3 o3'
    rcases hr : readLines (fun s => goHasPrefix s "+OK") reads with ⟨r1, rem⟩
    have hrw : readLinesW (fun s => goHasPrefix s "+OK") ⟨reads, [o1, o2, o3]⟩
        = (r1, ⟨rem, [o1, o2, o3]⟩) := by
      simp [readLinesW, hr]
    have hrw' : readLinesW (fun s => goHasPrefix s "+OK") ⟨reads, [o1, o2, o3']⟩
        = (r1, ⟨rem, [o1, o2, o3']⟩) := by
      simp [readLinesW, hr]
    rcases r1 with e | lines
    · simp [checkMailbox, hrw, hrw']
    · rcases lines with _ | ⟨l, _ | ⟨l2, rest2⟩⟩
      · simp [checkMailbox, hrw, hrw']
      · by_cases hpl : goHasPrefix l "+OK " = true
        · simp only [checkMailbox, hrw, hrw', hpl, if_true]
          exact afterGreeting_writes_tail user pass warnSize quotaWarnSize vb rem o1 o2 o3 o3'
        · simp [checkMailbox, hrw, hrw', hpl]
      · simp [checkMailbox, hrw, hrw']
  · intro e o1 o2 o3 ho l rest h hpre
    have hrw : readLinesW (fun s => goHasPrefix s "+OK") ⟨reads, [o1, o2, o3]⟩
        = (Except.ok [l], ⟨rest, [o1, o2, o3]⟩) := by
      simp [readLinesW, h]
    rcases ho with ho | ho <;> subst ho <;>
      simp only [checkMailbox, hrw, hpre, if_true, afterGreeting, writeLine] <;>
      exact ⟨trivial, by rw [List.filter_append, filter_isWrite_vlog_ite]; rfl⟩
  · intro e o2 o3 ho l l2 rest rest2 h hpre h2 hpre2
    have hrw : readLinesW (fun s => goHasPrefix s "+OK") ⟨reads, [WriteResult.ok, o2, o3]⟩
        = (Except.ok [l], ⟨rest, [WriteResult.ok, o2, o3]⟩) := by
      simp [readLinesW, h]
    have hrw2 : readLinesW (fun s => goHasPrefix s "+OK") ⟨rest, [o2, o3]⟩
        = (Except.ok [l2], ⟨rest2, [o2, o3]⟩) := by
      simp [readLinesW, h2]
    rcases ho with ho | ho <;> subst ho <;>
      simp only [checkMailbox, hrw, hpre, if_true, afterGreeting, writeLine, hrw2, hpre2,
        afterUser, withEvents] <;>
      refine ⟨trivial, ?_⟩ <;>
      simp only [List.filter_append, filter_isWrite_vlog_ite, List.nil_append] <;>
      rfl

/-- Witness for C2's amended claim: a failed USER write ends the check with
that error and only the USER command was ever written. -/
theorem checkMailbox_write_error_semantics_witness :
    (checkMailbox "u" "p" 5 5 false
        ⟨[ReadOutcome.line "+OK hi"], [WriteResult.wErr "boom", WriteResult.ok, WriteResult.ok]⟩).1
      = Except.error "boom"
  ∧ ((checkMailbox "u" "p" 5 5 false
        ⟨[ReadOutcome.line "+OK hi"], [WriteResult.wErr "boom", WriteResult.ok, WriteResult.ok]⟩).2).filter isWrite
      = [Event.write "USER u"] := by
  have h := (checkMailbox_write_error_semantics "u" "p" 5 5 false
    [ReadOutcome.line "+OK hi"]).2.1 "boom" (WriteResult.wErr "boom") WriteResult.ok
    WriteResult.ok (Or.inl rfl) "+OK hi" [] rfl rfl
  exact h

/-- Counterexample to C2 as stated: the LIST write fails with `boom`, yet
the check does not fail with that error before reading the LIST response -
it reads and processes the response and succeeds, message warning and
quota warning included. -/
theorem checkMailbox_list_write_error_cex :
    checkMailbox "u" "p" 50 100 false
      ⟨[ReadOutcome.line "+OK hi", ReadOutcome.line "+OK", ReadOutcome.line "+OK",
        ReadOutcome.line "1 6000000", ReadOutcome.line "."],
       [WriteResult.ok, WriteResult.ok, WriteResult.wErr "boom"]⟩
      = (Except.ok (),
         [Event.write "USER u", Event.write "PASS p", Event.write "LIST",
          Event.warnBig 1 6000000, Event.warnQuota 6000000]) := rfl

end Pop3

namespace Pop3

/-! ### Claim C10: verbosity never changes the outcome -/

theorem filter_notVlog_vlog_ite (vb : Bool) (x : String) :
    (if vb then [Event.vlog x] else []).filter notVlog = [] := by
  cases vb <;> rfl

theorem filter_notVlog_warn_ite (c : Prop) [Decidable c] (i z : Int) :
    (if c then [Event.warnBig i z] else []).filter notVlog
      = (if c then [Event.warnBig i z] else []) := by
  split <;> rfl

theorem filter_notVlog_quota_ite (c : Prop) [Decidable c] (t : Int) :
    (if c then [Event.warnQuota t] else []).filter notVlog
      = (if c then [Event.warnQuota t] else []) := by
  split <;> rfl

theorem writeLine_vb (s : String) (w : World) :
    (writeLine s true w).1 = (writeLine s false w).1
  ∧ (writeLine s true w).2.1 = (writeLine s false w).2.1
  ∧ ((writeLine s true w).2.2).filter notVlog = ((writeLine s false w).2.2).filter notVlog := by
  rcases w with ⟨rs, ws⟩
  rcases ws with _ | ⟨o, rest⟩
  · exact ⟨rfl, rfl, rfl⟩
  · cases o <;> exact ⟨rfl, rfl, rfl⟩

theorem scanList_vb (warnSize : Int) (ls : List String) (t : Int) :
    (scanListLines warnSize true ls t).1 = (scanListLines warnSize false ls t).1
  ∧ ((scanListLines warnSize true ls t).2).filter notVlog
      = ((scanListLines warnSize false ls t).2).filter notVlog := by
  induction ls generalizing t with
  | nil => exact ⟨rfl, rfl⟩
  | cons l rest ih =>
    by_cases hskip : (goHasPrefix l "+OK" || l == ".") = true
    · refine ⟨?_, ?_⟩
      · simpa [scanListLines, hskip] using (ih t).1
      · simp [scanListLines, hskip, List.filter_append, filter_notVlog_vlog_ite, notVlog, (ih t).2]
    · rcases hs : sscanf2 l with e | ⟨id, size⟩
      · refine ⟨?_, ?_⟩
        · simp [scanListLines, hskip, hs]
        · simp [scanListLines, hskip, hs, filter_notVlog_vlog_ite, notVlog]
      · refine ⟨?_, ?_⟩
        · simpa [scanListLines, hskip, hs] using (ih (wrap64 (t + size))).1
        · simp [scanListLines, hskip, hs, List.filter_append, filter_notVlog_vlog_ite,
            filter_notVlog_warn_ite, notVlog, (ih (wrap64 (t + size))).2]

theorem listStep_vb (warnSize quotaWarnSize : Int) (ls : List String) :
    (listStep warnSize quotaWarnSize true ls).1 = (listStep warnSize quotaWarnSize false ls).1
  ∧ ((listStep warnSize quotaWarnSize true ls).2).filter notVlog
      = ((listStep warnSize quotaWarnSize false ls).2).filter notVlog := by
  obtain ⟨h1, h2⟩ := scanList_vb warnSize ls 0
  rcases ht : scanListLines warnSize true ls 0 with ⟨rt, et⟩
  rcases hf : scanListLines warnSize false ls 0 with ⟨rf, ef⟩
  rw [ht, hf] at h1 h2
  simp only at h1 h2
  subst h1
  rcases rt with e | total
  · exact ⟨by simp [listStep, ht, hf], by simp [listStep, ht, hf, h2]⟩
  · refine ⟨by simp [listStep, ht, hf], ?_⟩
    simp [listStep, ht, hf, List.filter_append, h2, filter_notVlog_vlog_ite,
      filter_notVlog_quota_ite, notVlog]

theorem afterPass_vb (warnSize quotaWarnSize : Int) (w : World) :
    (afterPass warnSize quotaWarnSize true w).1 = (afterPass warnSize quotaWarnSize false w).1
  ∧ ((afterPass warnSize quotaWarnSize true w).2).filter notVlog
      = ((afterPass warnSize quotaWarnSize false w).2).filter notVlog := by
  obtain ⟨hw1, hw2, hw3⟩ := writeLine_vb "LIST" w
  rcases ht : writeLine "LIST" true w with ⟨rt, wt, et⟩
  rcases hf : writeLine "LIST" false w with ⟨rf, wf, ef⟩
  rw [ht, hf] at hw1 hw2 hw3
  simp only at hw1 hw2 hw3
  subst hw2
  rcases hr : readLinesW (fun s => s == ".") wt with ⟨r1, w2⟩
  rcases r1 with e | lines
  · exact ⟨by simp [afterPass, ht, hf, hr, withEvents],
      by simp [afterPass, ht, hf, hr, withEvents, List.filter_append, hw3]⟩
  · obtain ⟨l1, l2⟩ := listStep_vb warnSize quotaWarnSize lines
    exact ⟨by simp [afterPass, ht, hf, hr, withEvents, l1],
      by simp [afterPass, ht, hf, hr, withEvents, List.filter_append, hw3, l2]⟩

theorem afterUser_vb (pass : String) (warnSize quotaWarnSize : Int) (w : World) :
    (afterUser pass warnSize quotaWarnSize true w).1
      = (afterUser pass warnSize quotaWarnSize false w).1
  ∧ ((afterUser pass warnSize quotaWarnSize true w).2).filter notVlog
      = ((afterUser pass warnSize quotaWarnSize false w).2).filter notVlog := by
  obtain ⟨hw1, hw2, hw3⟩ := writeLine_vb ("PASS " ++ pass) w
  rcases ht : writeLine ("PASS " ++ pass) true w with ⟨rt, wt, et⟩
  rcases hf : writeLine ("PASS " ++ pass) false w with ⟨rf, wf, ef⟩
  rw [ht, hf] at hw1 hw2 hw3
  simp only at hw1 hw2 hw3
  subst hw1
  subst hw2
  rcases rt with e | u
  · exact ⟨by simp [afterUser, ht, hf], by simp [afterUser, ht, hf, hw3]⟩
  · rcases hr : readLinesW (fun s => goHasPrefix s "+OK") wt with ⟨r1, w2⟩
    rcases r1 with e | lines
    · exact ⟨by simp [afterUser, ht, hf, hr, withEvents],
        by simp [afterUser, ht, hf, hr, withEvents, List.filter_append, hw3]⟩
    · rcases lines with _ | ⟨l, _ | ⟨l2, rest2⟩⟩
      · exact ⟨by simp [afterUser, ht, hf, hr, withEvents],
          by simp [afterUser, ht, hf, hr, withEvents, List.filter_append, hw3]⟩
      · by_cases hpl : goHasPrefix l "+OK" = true
        · obtain ⟨p1, p2⟩ := afterPass_vb warnSize quotaWarnSize w2
          exact ⟨by simp [afterUser, ht, hf, hr, withEvents, hpl, p1],
            by simp [afterUser, ht, hf, hr, withEvents, hpl, List.filter_append, hw3, p2]⟩
        · exact ⟨by simp [afterUser, ht, hf, hr, withEvents, hpl],
            by simp [afterUser, ht, hf, hr, withEvents, hpl, List.filter_append, hw3]⟩
      · exact ⟨by simp [afterUser, ht, hf, hr, withEvents],
          by simp [afterUser, ht, hf, hr, withEvents, List.filter_append, hw3]⟩

theorem afterGreeting_vb (user pass : String) (warnSize quotaWarnSize : Int) (w : World) :
    (afterGreeting user pass warnSize quotaWarnSize true w).1
      = (afterGreeting user pass warnSize quotaWarnSize false w).1
  ∧ ((afterGreeting user pass warnSize quotaWarnSize true w).2).filter notVlog
      = ((afterGreeting user pass warnSize quotaWarnSize false w).2).filter notVlog := by
  obtain ⟨hw1, hw2, hw3⟩ := writeLine_vb ("USER " ++ user) w
  rcases ht : writeLine ("USER " ++ user) true w with ⟨rt, wt, et⟩
  rcases hf : writeLine ("USER " ++ user) false w with ⟨rf, wf, ef⟩
  rw [ht, hf] at hw1 hw2 hw3
  simp only at hw1 hw2 hw3
  subst hw1
  subst hw2
  rcases rt with e | u
  · exact ⟨by simp [afterGreeting, ht, hf], by simp [afterGreeting, ht, hf, hw3]⟩
  · rcases hr : readLinesW (fun s => goHasPrefix s "+OK") wt with ⟨r1, w2⟩
    rcases r1 with e | lines
    · exact ⟨by simp [afterGreeting, ht, hf, hr, withEvents],
        by simp [afterGreeting, ht, hf, hr, withEvents, List.filter_append, hw3]⟩
    · rcases lines with _ | ⟨l, _ | ⟨l2, rest2⟩⟩
      · exact ⟨by simp [afterGreeting, ht, hf, hr, withEvents],
          by simp [afterGreeting, ht, hf, hr, withEvents, List.filter_append, hw3]⟩
      · by_cases hpl : goHasPrefix l "+OK" = true
        · obtain ⟨p1, p2⟩ := afterUser_vb pass warnSize quotaWarnSize w2
          exact ⟨by simp [afterGreeting, ht, hf, hr, withEvents, hpl, p1],
            by simp [afterGreeting, ht, hf, hr, withEvents, hpl, List.filter_append, hw3, p2]⟩
        · exact ⟨by simp [afterGreeting, ht, hf, hr, withEvents, hpl],
            by simp [afterGreeting, ht, hf, hr, withEvents, hpl, List.filter_append, hw3]⟩
      · exact ⟨by simp [afterGreeting, ht, hf, hr, withEvents],
          by simp [afterGreeting, ht, hf, hr, withEvents, List.filter_append, hw3]⟩

/-- C10: for any fixed server behaviour, the run with the verbose flag on
and the run with it off produce the same result and the same events apart
from the verbose-only diagnostics: the success-or-error outcome is
identical and so is every non-diagnostic event (commands written, size and
quota warnings). -/
theorem checkMailbox_verbose_invariant (user pass : String) (warnSize quotaWarnSize : Int)
    (w : World) :
    (checkMailbox user pass warnSize quotaWarnSize true w).1
      = (checkMailbox user pass warnSize quotaWarnSize false w).1
  ∧ ((checkMailbox user pass warnSize quotaWarnSize true w).2).filter notVlog
      = ((checkMailbox user pass warnSize quotaWarnSize false w).2).filter notVlog := by
  rcases hr : readLinesW (fun s => goHasPrefix s "+OK") w with ⟨r1, w1⟩
  rcases r1 with e | lines
  · exact ⟨by simp [checkMailbox, hr], by simp [checkMailbox, hr]⟩
  · rcases lines with _ | ⟨l, _ | ⟨l2, rest2⟩⟩
    · exact ⟨by simp [checkMailbox, hr], by simp [checkMailbox, hr]⟩
    · by_cases hpl : goHasPrefix l "+OK " = true
      · obtain ⟨p1, p2⟩ := afterGreeting_vb user pass warnSize quotaWarnSize w1
        exact ⟨by simp [checkMailbox, hr, hpl, p1], by simp [checkMailbox, hr, hpl, p2]⟩
      · exact ⟨by simp [checkMailbox, hr, hpl], by simp [checkMailbox, hr, hpl]⟩
    · exact ⟨by simp [checkMailbox, hr], by simp [checkMailbox, hr]⟩

end Pop3

namespace Pop3

/-- Witness for C9 at warn threshold 50. -/
theorem scanList_negative_size_witness :
    (scanListLines 50 false ["+OK", "1 100", "2 -500", "."] 0).1 = Except.ok (-400)
  ∧ Event.warnBig 2 (-500) ∉ (scanListLines 50 false ["+OK", "1 100", "2 -500", "."] 0).2 := by
  have h := scanList_negative_size 50 (by norm_num)
  exact ⟨h.2.1, h.2.2.1⟩

end Pop3
